import Mathlib

/-!
  Verification development for the monza block-notification monitor.

  The definitions below are a shallow embedding of the program's core:
  the cache-aside block/log cache (src/chain/chain.go), the prefetch
  worker pool (src/main.go, cacheBlocks), the notification matcher
  (src/main.go, run) and the stutter detector (the stutter command).
  External collaborators (the RPC client, the bbolt store, the binary
  codecs) are modelled at their logical interface: byte strings are
  lists of naturals, the store is an association list per bucket, the
  codecs and the remote endpoint are environment parameters.
-/

namespace Monza

/-- Byte strings (bbolt keys and values, hashes in BytesLE form). -/
abbrev Bytes := List Nat

/-- Decidable equality of fallible results, used to evaluate the cache
operations on concrete inputs. -/
instance {ε α : Type} [DecidableEq ε] [DecidableEq α] : DecidableEq (Except ε α) := fun a b =>
  match a, b with
  | .error x, .error y =>
    decidable_of_iff (x = y) ⟨fun h => by rw [h], fun h => by cases h; rfl⟩
  | .error _, .ok _ => isFalse fun h => by cases h
  | .ok _, .error _ => isFalse fun h => by cases h
  | .ok x, .ok y =>
    decidable_of_iff (x = y) ⟨fun h => by rw [h], fun h => by cases h; rfl⟩

/-- One notification event (state.NotificationEvent): contract script
hash, event name and an opaque payload item. -/
structure NotificationEvent where
  scriptHash : Nat
  name : String
  item : Nat
  deriving DecidableEq

/-- One execution inside an application log, carrying its ordered
notification events (state.AppExecResult.Events). -/
structure Execution where
  events : List NotificationEvent
  deriving DecidableEq

/-- An application log (result.ApplicationLog): ordered executions. -/
structure AppLog where
  executions : List Execution
  deriving DecidableEq

/-- A block record (result.Block) as the embedded core uses it: index
(uint32), millisecond-epoch timestamp (uint64), block hash and the
ordered transaction hashes, both already in BytesLE key form. -/
structure BlockRec where
  index : Nat
  timestamp : Nat
  hash : Bytes
  txs : List Bytes
  deriving DecidableEq

/-! ## Store keys (chain.go: binary.LittleEndian.PutUint32) -/

/-- The fixed-width 4-byte key a block is persisted under:
binary.LittleEndian.PutUint32(key, i), least significant byte first. -/
def blockKey (i : Nat) : Bytes :=
  [i % 256, i / 256 % 256, i / 65536 % 256, i / 16777216 % 256]

/-- Byte-lexicographic strict order on byte strings, the order bbolt
keeps its keys in (bytes.Compare < 0). -/
def lexLt : Bytes → Bytes → Bool
  | [], [] => false
  | [], _ :: _ => true
  | _ :: _, [] => false
  | a :: as, b :: bs => if a < b then true else if b < a then false else lexLt as bs

/-! ## Stutter detector (stutter command, loop over the block range) -/

/-- One line of stutter output: either a skipped-run summary
("-- skipped N blocks --") or a reported stutter pair with its delta in
nanoseconds (the two PrintBlock lines). -/
inductive StutterReport
  | skip (n : Nat)
  | pair (prevIdx currIdx : Nat) (delta : Int)
  deriving DecidableEq

/-- Timestamp conversion the stutter loop performs:
time.Unix(int64(b.Timestamp/1e3), 0), i.e. the millisecond epoch value
truncated to whole seconds, expressed in nanoseconds so that it can be
compared with an arbitrary time.Duration threshold. -/
def tsSecNS (t : Nat) : Int :=
  (Int.ofNat (t / 1000)) * 1000000000

/-- Wrapping uint32 subtraction (skippedBlocks := prev.Index - lastStutterBlock). -/
def sub32 (a b : Nat) : Nat :=
  (a + 4294967296 - b % 4294967296) % 4294967296

/-- The body of the stutter loop, carried over the remaining blocks.
State mirrors the Go locals: curr (the previous iteration's block,
nil before the first iteration), currTS (its converted timestamp) and
lastStutterBlock. Each iteration shifts prev/curr, converts the
timestamp, skips the first block, compares the delta strictly against
the threshold and emits the skip line and the stutter pair. -/
def stutterGo (threshold : Int) :
    List BlockRec → Option BlockRec → Int → Nat → List StutterReport
  | [], _, _, _ => []
  | b :: rest, curr, currTS, lastStutterBlock =>
    let prev := curr
    let prevTS := currTS
    let currTS' := tsSecNS b.timestamp
    match prev with
    | none => stutterGo threshold rest (some b) currTS' lastStutterBlock
    | some p =>
      let blockDelta := currTS' - prevTS
      if blockDelta ≤ threshold then
        stutterGo threshold rest (some b) currTS' lastStutterBlock
      else
        let skippedBlocks := sub32 p.index lastStutterBlock
        (if 0 < lastStutterBlock ∧ 1 < skippedBlocks
            then [StutterReport.skip (skippedBlocks - 1)] else [])
          ++ StutterReport.pair p.index b.index blockDelta
            :: stutterGo threshold rest (some b) currTS' b.index

/-- The whole stutter scan over the blocks of the range, with the Go
zero values for the loop state. -/
def stutterScan (bs : List BlockRec) (threshold : Int) : List StutterReport :=
  stutterGo threshold bs none 0 0

/-- Modelled from the spec: the same scan as the spec's words describe
the delta ("compute delta = currTimestamp - prevTimestamp" from the
millisecond-epoch timestamps), i.e. millisecond precision instead of
the second truncation the code performs. Used only to compare the
spec's description with the code. -/
def stutterGoSpecMs (threshold : Int) :
    List BlockRec → Option BlockRec → Int → Nat → List StutterReport
  | [], _, _, _ => []
  | b :: rest, curr, currTS, lastStutterBlock =>
    let prev := curr
    let prevTS := currTS
    let currTS' := (Int.ofNat b.timestamp) * 1000000
    match prev with
    | none => stutterGoSpecMs threshold rest (some b) currTS' lastStutterBlock
    | some p =>
      let blockDelta := currTS' - prevTS
      if blockDelta ≤ threshold then
        stutterGoSpecMs threshold rest (some b) currTS' lastStutterBlock
      else
        let skippedBlocks := sub32 p.index lastStutterBlock
        (if 0 < lastStutterBlock ∧ 1 < skippedBlocks
            then [StutterReport.skip (skippedBlocks - 1)] else [])
          ++ StutterReport.pair p.index b.index blockDelta
            :: stutterGoSpecMs threshold rest (some b) currTS' b.index

/-- Spec-described scan over a whole range (millisecond deltas). -/
def stutterScanSpecMs (bs : List BlockRec) (threshold : Int) : List StutterReport :=
  stutterGoSpecMs threshold bs none 0 0

/-! ## Notification matcher (main.go, run loop over a block's events) -/

/-- The parsed criteria map (p.notifications : map[string]*util.Uint160):
event name to emitter, where none as the inner value is the wildcard
(nil contract pointer). -/
abbrev Criteria := String → Option (Option Nat)

/-- The events of one block that survive the run loop's two continue
filters: the name must be a key of the criteria map, and the criteria's
contract, when not nil, must equal the event's script hash. -/
def matchedEvents (crit : Criteria) (evs : List NotificationEvent) :
    List NotificationEvent :=
  evs.filter fun ev =>
    match crit ev.name with
    | none => false
    | some contract =>
      match contract with
      | none => true
      | some c => decide (c = ev.scriptHash)

/-! ## Cache layer (src/chain/chain.go)

The bbolt database is modelled as one association list per bucket
(newest entry first, as Put shadows older entries), and the external
codecs and the RPC client as environment parameters. External error
payloads are opaque numeric codes. Side effects survive an error, so
every exported operation returns its result together with the state;
ghost counters record how often the remote endpoint was called and how
often a bucket was written. -/

/-- A bbolt bucket: key/value pairs, most recent Put first. -/
abbrev Bucket := List (Bytes × Bytes)

/-- Lookup in a bucket (bkt.Get): the value of the most recent Put
under the key, absent otherwise. -/
def bktGet (b : Bucket) (k : Bytes) : Option Bytes :=
  (b.find? fun p => decide (p.1 = k)).map (·.2)

/-- The external collaborators of the Chain type: the RPC client
(GetBlockByIndexVerbose, GetApplicationLog) and the binary/JSON codecs
of blocks and logs. Error payloads are opaque codes. -/
structure ChainEnv where
  remoteBlock : Nat → Except Nat BlockRec
  remoteLog : Bytes → Except Nat AppLog
  encodeBlock : BlockRec → Except Nat Bytes
  decodeBlock : Bytes → Except Nat BlockRec
  encodeLog : AppLog → Except Nat Bytes
  decodeLog : Bytes → Except Nat AppLog

/-- The persistent state: the two buckets ("blocks", "logs") plus ghost
counters of remote calls and bucket writes. -/
structure ChainSt where
  blocks : Bucket
  logs : Bucket
  blockFetches : Nat
  logFetches : Nat
  blockWrites : Nat
  logWrites : Nat
  deriving DecidableEq

/-- The error taxonomy of the cache layer, one constructor per wrapping
fmt.Errorf in chain.go, carrying the wrapped opaque code. -/
inductive CErr
  | cacheReadBlock (i : Nat) (e : Nat)
  | remoteBlockErr (i : Nat) (e : Nat)
  | addBlockErr (i : Nat) (e : Nat)
  | cacheReadLog (h : Bytes) (e : Nat)
  | remoteLogErr (h : Bytes) (e : Nat)
  | addLogErr (h : Bytes) (e : Nat)
  deriving DecidableEq

/-- Chain.block (chain.go:82): the read-only cache lookup. An absent
bucket or key and a zero-length stored value are clean misses (ok none);
a non-empty value that fails to decode is the wrapped cache-read error. -/
def block (env : ChainEnv) (st : ChainSt) (i : Nat) :
    Except CErr (Option BlockRec) :=
  match bktGet st.blocks (blockKey i) with
  | none => .ok none
  | some data =>
    if data.length = 0 then .ok none
    else
      match env.decodeBlock data with
      | .error e => .error (.cacheReadBlock i e)
      | .ok b => .ok (some b)

/-- Chain.addBlock (chain.go:110): encode the block and Put it in the
blocks bucket under the little-endian key of its own Index field. -/
def addBlock (env : ChainEnv) (st : ChainSt) (b : BlockRec) :
    Except CErr ChainSt :=
  match env.encodeBlock b with
  | .error e => .error (.addBlockErr b.index e)
  | .ok data =>
    .ok { st with blocks := (blockKey b.index, data) :: st.blocks,
                  blockWrites := st.blockWrites + 1 }

/-- Chain.Block (chain.go:54): cache read first; on a hit return the
decoded record; on a miss fetch from the RPC client (counted), then
persist through addBlock and return the fetched record. -/
def Block (env : ChainEnv) (st : ChainSt) (i : Nat) :
    Except CErr BlockRec × ChainSt :=
  match block env st i with
  | .error e => (.error e, st)
  | .ok (some cached) => (.ok cached, st)
  | .ok none =>
    let st1 := { st with blockFetches := st.blockFetches + 1 }
    match env.remoteBlock i with
    | .error e => (.error (.remoteBlockErr i e), st1)
    | .ok b =>
      match addBlock env st1 b with
      | .error e => (.error e, st1)
      | .ok st2 => (.ok b, st2)

/-- Chain.applicationLog (chain.go:153): read-only lookup in the logs
bucket under the raw hash key, with the same clean-miss and corruption
behavior as the block lookup. -/
def applicationLog (env : ChainEnv) (st : ChainSt) (h : Bytes) :
    Except CErr (Option AppLog) :=
  match bktGet st.logs h with
  | none => .ok none
  | some data =>
    if data.length = 0 then .ok none
    else
      match env.decodeLog data with
      | .error e => .error (.cacheReadLog h e)
      | .ok l => .ok (some l)

/-- Chain.addApplicationLog (chain.go:175): marshal the log and Put it
in the logs bucket under the requested hash. -/
def addApplicationLog (env : ChainEnv) (st : ChainSt) (h : Bytes) (l : AppLog) :
    Except CErr ChainSt :=
  match env.encodeLog l with
  | .error e => .error (.addLogErr h e)
  | .ok val =>
    .ok { st with logs := (h, val) :: st.logs,
                  logWrites := st.logWrites + 1 }

/-- Chain.ApplicationLog (chain.go:135): read-through, write-through by
raw hash key, counting remote calls. -/
def ApplicationLog (env : ChainEnv) (st : ChainSt) (h : Bytes) :
    Except CErr AppLog × ChainSt :=
  match applicationLog env st h with
  | .error e => (.error e, st)
  | .ok (some cached) => (.ok cached, st)
  | .ok none =>
    let st1 := { st with logFetches := st.logFetches + 1 }
    match env.remoteLog h with
    | .error e => (.error (.remoteLogErr h e), st1)
    | .ok l =>
      match addApplicationLog env st1 h l with
      | .error e => (.error e, st1)
      | .ok st2 => (.ok l, st2)

/-- The events of one application log in execution order: the run over
appLog.Executions appending execution.Events. -/
def notifsOfLog (l : AppLog) : List NotificationEvent :=
  l.executions.foldl (fun acc ex => acc ++ ex.events) []

/-- The transaction half of Chain.AllNotifications: fold the block's
transaction hashes in order, fetching each log and appending its events
to the accumulator; the first error stops the walk. -/
def allNotifsTxs (env : ChainEnv) :
    List Bytes → ChainSt → List NotificationEvent →
    Except CErr (List NotificationEvent) × ChainSt
  | [], st, acc => (.ok acc, st)
  | h :: rest, st, acc =>
    match ApplicationLog env st h with
    | (.error e, st1) => (.error e, st1)
    | (.ok l, st1) => allNotifsTxs env rest st1 (acc ++ notifsOfLog l)

/-- Chain.AllNotifications (chain.go:210): the block's own log's events
first, then the events of each transaction's log in block order. -/
def AllNotifications (env : ChainEnv) (st : ChainSt) (b : BlockRec) :
    Except CErr (List NotificationEvent) × ChainSt :=
  match ApplicationLog env st b.hash with
  | (.error e, st1) => (.error e, st1)
  | (.ok l, st1) => allNotifsTxs env b.txs st1 (notifsOfLog l)

/-- Helper to state the expected shape of AllNotifications on a hot
cache: the concatenation of the per-hash logs' events in order. -/
def eventsOfLogs (logOf : Bytes → AppLog) : List Bytes → List NotificationEvent
  | [] => []
  | h :: rest => notifsOfLog (logOf h) ++ eventsOfLogs logOf rest

/-! ## Prefetch pool (src/main.go, cacheBlocks)

cacheBlocks is goroutine code; it is embedded as a small-step machine
whose interleavings are chosen by an explicit schedule. Each action is
one atomic step of one participant: the main goroutine's dispatch-loop
select and final select, a worker's channel receive, wg.Add, task
processing and wg.Done, the waiter goroutine ('go func(){wg.Wait();
close(wgCh)}()'), and the arrival of the cancellation signal. Channel
operations are rendezvous: a send step requires the peer to be at its
receive point. Processing a task abstracts the Block/AllNotifications
pair into one step that either caches the index or produces the
worker's error, as the environment dictates. A ghost counter counts
claimed tasks. -/

/-- Program counter of one worker goroutine: at the select waiting for
a job or ctx.Done; having received a job but not yet executed wg.Add;
processing the job; finished processing but before wg.Done; blocked
sending its error on errCh; or returned. -/
inductive WPc
  | idle
  | got (i : Nat)
  | work (i : Nat)
  | fin
  | errp (i : Nat)
  | exited
  deriving DecidableEq

/-- The value cacheBlocks returns: nil, the interruption error
(errors.New("interrupted")) or a worker's wrapped fetch error. -/
inductive MErr
  | interrupted
  | fetchErr (i : Nat)
  deriving DecidableEq

/-- Program counter of the main goroutine: inside the dispatch loop,
at the final select, or returned with a result. -/
inductive MPc
  | disp
  | final
  | retOk
  | retErr (e : MErr)
  deriving DecidableEq

/-- Environment of one cacheBlocks run: the block interval [fromIdx,
toIdx) and which indices the remote fetch fails on. -/
structure PoolEnv where
  fromIdx : Nat
  toIdx : Nat
  failAt : Nat → Bool

/-- One global state of the machine: the cancellation flag, the main
goroutine's position and loop index, whether the waiter goroutine was
spawned and whether it has closed wgCh, the WaitGroup counter, every
worker's position, the set of indices whose block and logs have been
cached, and the ghost count of claimed tasks. -/
structure PoolSt where
  ctxDone : Bool
  mpc : MPc
  next : Nat
  waiterSpawned : Bool
  wgClosed : Bool
  counter : Nat
  workers : List WPc
  cached : List Nat
  claimed : Nat
  deriving DecidableEq

/-- Position of worker w (workers that do not exist count as returned). -/
def wpcAt (s : PoolSt) (w : Nat) : WPc :=
  s.workers.getD w .exited

/-- The schedulable atomic actions. -/
inductive PoolAct
  | cancel
  | mDone
  | mRecvErr (w : Nat)
  | mSend (w : Nat)
  | mAdvance
  | mFinishOk
  | wCancel (w : Nat)
  | wAdd (w : Nat)
  | wProcess (w : Nat)
  | wDone (w : Nat)
  | waiterClose

/-- Whether the main goroutine is currently blocked in one of its two
selects: the dispatch-loop select (only while the loop condition
i < p.to still holds) or the final select. -/
def mainAtSelect (env : PoolEnv) (s : PoolSt) : Prop :=
  s.mpc = .final ∨ (s.mpc = .disp ∧ s.next < env.toIdx)

instance (env : PoolEnv) (s : PoolSt) : Decidable (mainAtSelect env s) := by
  unfold mainAtSelect; infer_instance

/-- One atomic step. An action whose guard does not hold leaves the
state unchanged (the schedule picked a participant that is not ready). -/
def step (env : PoolEnv) (s : PoolSt) : PoolAct → PoolSt
  | .cancel => { s with ctxDone := true }
  | .mDone =>
    if s.ctxDone ∧ mainAtSelect env s
      then { s with mpc := .retErr .interrupted } else s
  | .mRecvErr w =>
    match wpcAt s w with
    | .errp i =>
      if mainAtSelect env s
        then { s with mpc := .retErr (.fetchErr i),
                      workers := s.workers.set w .exited }
        else s
    | _ => s
  | .mSend w =>
    if s.mpc = .disp ∧ s.next < env.toIdx ∧ wpcAt s w = .idle
      then { s with workers := s.workers.set w (.got s.next),
                    next := s.next + 1,
                    claimed := s.claimed + 1 }
      else s
  | .mAdvance =>
    if s.mpc = .disp ∧ env.toIdx ≤ s.next
      then { s with mpc := .final, waiterSpawned := true } else s
  | .mFinishOk =>
    if s.mpc = .final ∧ s.wgClosed then { s with mpc := .retOk } else s
  | .wCancel w =>
    if wpcAt s w = .idle ∧ s.ctxDone
      then { s with workers := s.workers.set w .exited } else s
  | .wAdd w =>
    match wpcAt s w with
    | .got i => { s with counter := s.counter + 1,
                         workers := s.workers.set w (.work i) }
    | _ => s
  | .wProcess w =>
    match wpcAt s w with
    | .work i =>
      if env.failAt i
        then { s with workers := s.workers.set w (.errp i) }
        else { s with workers := s.workers.set w .fin,
                      cached := i :: s.cached }
    | _ => s
  | .wDone w =>
    match wpcAt s w with
    | .fin => { s with counter := s.counter - 1,
                       workers := s.workers.set w .idle }
    | _ => s
  | .waiterClose =>
    if s.waiterSpawned ∧ s.counter = 0 ∧ s.wgClosed = false
      then { s with wgClosed := true } else s

/-- Run the machine under a schedule. -/
def runPool (env : PoolEnv) : List PoolAct → PoolSt → PoolSt
  | [], s => s
  | a :: rest, s => runPool env rest (step env s a)

/-- The state right after cacheBlocks passed its worker-count guard and
spawned workerCount workers: main about to dispatch fromIdx, all
workers at their select, WaitGroup at zero, nothing cached. -/
def initPool (env : PoolEnv) (workerCount : Nat) : PoolSt :=
  { ctxDone := false, mpc := .disp, next := env.fromIdx,
    waiterSpawned := false, wgClosed := false, counter := 0,
    workers := List.replicate workerCount .idle,
    cached := [], claimed := 0 }

/-- A one-task, one-worker, no-failure run used as concrete input. -/
def env01 : PoolEnv :=
  { fromIdx := 0, toIdx := 1, failAt := fun _ => false }

/-! ## Concrete inputs used by witnesses and counterexamples -/

/-- The pool state of env01 right after the cancellation signal. -/
def stCancel : PoolSt := step env01 (initPool env01 1) .cancel

/-- Two consecutive blocks 999 milliseconds apart but inside the same
whole second (timestamps 1000 ms and 1999 ms). -/
def cxB0 : BlockRec := { index := 0, timestamp := 1000, hash := [], txs := [] }

/-- Companion block of cxB0, see there. -/
def cxB1 : BlockRec := { index := 1, timestamp := 1999, hash := [], txs := [] }

/-- A previous block at index 20 (one second after epoch). -/
def pb20 : BlockRec := { index := 20, timestamp := 1000, hash := [], txs := [] }

/-- The successor block at index 21, 59 seconds after pb20. -/
def cb21 : BlockRec := { index := 21, timestamp := 60000, hash := [], txs := [] }

/-- A benign concrete environment: the remote endpoint serves block i
with hash [i], the block codec stores the index as a single byte, and
the log codec decodes stored bytes [d] to one execution with one event
whose script hash is d. -/
def wEnv : ChainEnv :=
  { remoteBlock := fun i => .ok { index := i, timestamp := 0, hash := [i], txs := [] }
    remoteLog := fun _ => .ok { executions := [] }
    encodeBlock := fun b => .ok [b.index % 256]
    decodeBlock := fun d => .ok { index := d.headD 0, timestamp := 0, hash := [d.headD 0], txs := [] }
    encodeLog := fun _ => .ok [0]
    decodeLog := fun d => .ok { executions := [{ events := [{ scriptHash := 10 * d.headD 0, name := ("E"), item := 0 }] }] } }

/-- An environment whose codecs always fail, used to exercise the
corruption path. -/
def cEnv : ChainEnv :=
  { remoteBlock := fun _ => .error 0
    remoteLog := fun _ => .error 0
    encodeBlock := fun _ => .error 0
    decodeBlock := fun _ => .error 7
    encodeLog := fun _ => .error 0
    decodeLog := fun _ => .error 9 }

/-- The empty cache state. -/
def st0 : ChainSt :=
  { blocks := [], logs := [], blockFetches := 0, logFetches := 0,
    blockWrites := 0, logWrites := 0 }

/-- The block fetched for index 5 in wEnv. -/
def b5 : BlockRec := { index := 5, timestamp := 0, hash := [5], txs := [] }

/-- A state with a non-empty but undecodable entry under the key of
block 3 (and a log entry under hash [4]). -/
def st5 : ChainSt :=
  { blocks := [(blockKey 3, [1, 2])], logs := [([4], [1])],
    blockFetches := 0, logFetches := 0, blockWrites := 0, logWrites := 0 }

/-- A state whose stored entries for block 2 and log hash [9] are
zero-length byte strings. -/
def st10 : ChainSt :=
  { blocks := [(blockKey 2, [])], logs := [([9], [])],
    blockFetches := 0, logFetches := 0, blockWrites := 0, logWrites := 0 }

/-- A block whose own hash is [1] and that lists transactions [2], [3]. -/
def b6 : BlockRec := { index := 1, timestamp := 0, hash := [1], txs := [[2], [3]] }

/-- A state with cached logs for hashes [1], [2], [3] (stored bytes
[10], [20], [30], which wEnv decodes to distinct one-event logs). -/
def st6 : ChainSt :=
  { blocks := [], logs := [([1], [10]), ([2], [20]), ([3], [30])],
    blockFetches := 0, logFetches := 0, blockWrites := 0, logWrites := 0 }

/-- The logs wEnv decodes the st6 entries to, one per subject hash. -/
def logOf6 : Bytes → AppLog := fun h =>
  { executions := [{ events := [{ scriptHash := 100 * h.headD 0, name := ("E"), item := 0 }] }] }

/-! ## Helper lemmas -/

/-- Wrapping uint32 subtraction agrees with plain subtraction whenever
the arguments do not wrap. -/
theorem sub32_no_wrap (a b : Nat) (h1 : b ≤ a) (h2 : a < 4294967296)
    (h3 : b < 4294967296) : sub32 a b = a - b := by
  unfold sub32; omega

/-! ## C3: store key order -/

/-- Claim C3 counterexample: the claim asserts key(i) < key(j) in
byte-lexicographic order whenever i < j, but the key is little-endian:
for i = 1 < j = 256 the order is reversed, key(256) < key(1). -/
theorem C3_counterexample :
    lexLt (blockKey 1) (blockKey 256) = false ∧
    lexLt (blockKey 256) (blockKey 1) = true := by
  decide

/-- Claim C3 (amended): the persisted block keys are fixed-width
(4 bytes) and injective — distinct indices below 2^32 get distinct
keys — but their byte-lexicographic order does not follow index order. -/
theorem C3_key_fixed_width_injective :
    ∀ i j : Nat, i < 4294967296 → j < 4294967296 → i ≠ j →
      (blockKey i).length = 4 ∧ blockKey i ≠ blockKey j := by
  intro i j hi hj hne
  refine ⟨rfl, fun heq => hne ?_⟩
  simp only [blockKey, List.cons.injEq, and_true] at heq
  omega

/-- Witness for C3: the amended statement evaluated at indices 1, 2. -/
theorem C3_witness :
    (1 : Nat) < 4294967296 ∧ (2 : Nat) < 4294967296 ∧ (1 : Nat) ≠ 2 ∧
    ((blockKey 1).length = 4 ∧ blockKey 1 ≠ blockKey 2) :=
  ⟨by decide, by decide, by decide,
    C3_key_fixed_width_injective 1 2 (by decide) (by decide) (by decide)⟩

/-! ## C7: notification matcher -/

/-- Claim C7: an event of a block survives the run loop's filters iff
its name is a key of the criteria map (exact, case-sensitive string
equality) and the criteria's emitter is the wildcard (nil) or equals
the event's emitter script hash. -/
theorem C7_matcher_selects :
    ∀ (crit : Criteria) (evs : List NotificationEvent) (ev : NotificationEvent),
      ev ∈ matchedEvents crit evs ↔
        ev ∈ evs ∧ ∃ em, crit ev.name = some em ∧
          (em = none ∨ em = some ev.scriptHash) := by
  intro crit evs ev
  unfold matchedEvents
  rw [List.mem_filter]
  refine and_congr_right fun _ => ?_
  cases h : crit ev.name with
  | none => simp [h]
  | some contract =>
    cases contract with
    | none => simp [h]
    | some c =>
      simp only [h, decide_eq_true_eq, Option.some.injEq]
      constructor
      · intro hc
        exact ⟨some c, rfl, Or.inr (by rw [hc])⟩
      · rintro ⟨em, hem, hor⟩
        cases hem
        rcases hor with h1 | h1
        · cases h1
        · cases h1; rfl

/-! ## C2: stutter skip accounting -/

/-- Claim C2: at a consecutive pair whose delta exceeds the threshold,
when a stutter was already reported (lastStutterBlock > 0) and
prev.index - lastStutterBlock > 1, the scan emits the skip record with
skipped = prev.index - lastStutterBlock - 1 first, then the stutter
pair (prev, curr, delta), and continues with lastStutterBlock set to
curr.index. -/
theorem C2_skip_then_pair :
    ∀ (th : Int) (rest : List BlockRec) (p b : BlockRec) (pTS : Int) (last : Nat),
      0 < last → last ≤ p.index → p.index < 4294967296 → last < 4294967296 →
      1 < p.index - last →
      th < tsSecNS b.timestamp - pTS →
      stutterGo th (b :: rest) (some p) pTS last =
        StutterReport.skip (p.index - last - 1)
          :: StutterReport.pair p.index b.index (tsSecNS b.timestamp - pTS)
          :: stutterGo th rest (some b) (tsSecNS b.timestamp) b.index := by
  intro th rest p b pTS last hpos hle hp32 hl32 hgap hdelta
  simp only [stutterGo]
  rw [if_neg (by omega), sub32_no_wrap p.index last hle hp32 hl32,
    if_pos ⟨hpos, hgap⟩]
  simp

/-- Witness for C2: a prior stutter recorded at index 10 followed by a
stutter whose prev has index 20 reports skipped = 20 - 10 - 1 = 9. -/
theorem C2_witness :
    (0 < 10 ∧ 10 ≤ pb20.index ∧ pb20.index < 4294967296 ∧
      10 < 4294967296 ∧ 1 < pb20.index - 10 ∧
      (20000000000 : Int) < tsSecNS cb21.timestamp - tsSecNS pb20.timestamp) ∧
    stutterGo 20000000000 [cb21] (some pb20) (tsSecNS pb20.timestamp) 10 =
      StutterReport.skip (pb20.index - 10 - 1)
        :: StutterReport.pair pb20.index cb21.index
            (tsSecNS cb21.timestamp - tsSecNS pb20.timestamp)
        :: stutterGo 20000000000 [] (some cb21) (tsSecNS cb21.timestamp) cb21.index :=
  ⟨by decide,
    C2_skip_then_pair 20000000000 [] pb20 cb21 (tsSecNS pb20.timestamp) 10
      (by decide) (by decide) (by decide) (by decide) (by decide) (by decide)⟩

/-! ## C8: delta computation, strictness, baseline seeding -/

/-- Claim C8 counterexample: the claim says the delta is computed from
the millisecond-epoch timestamps, but the code truncates both
timestamps to whole seconds first. Blocks 999 ms apart inside the same
second with a 500 ms threshold: millisecond arithmetic (the scan as the
spec words it) reports the pair, the code reports nothing. -/
theorem C8_counterexample :
    stutterScan [cxB0, cxB1] 500000000 = [] ∧
    stutterScanSpecMs [cxB0, cxB1] 500000000 =
      [StutterReport.pair 0 1 999000000] ∧
    (500000000 : Int) < ((1999 : Int) - 1000) * 1000000 := by
  refine ⟨by decide, by decide, by decide⟩

/-- Claim C8 (amended): the delta of a consecutive pair is computed at
second granularity — both millisecond timestamps are truncated to whole
seconds before subtracting — the threshold comparison is strict (a pair
whose delta does not exceed the threshold, equality included, reports
nothing), and the very first block of the range only seeds the baseline
(an empty or one-block list reports nothing). -/
theorem C8_second_granularity :
    ∀ (th : Int) (rest : List BlockRec) (p b : BlockRec) (last : Nat),
      (stutterScan [] th = [] ∧ ∀ b1 : BlockRec, stutterScan [b1] th = []) ∧
      (tsSecNS b.timestamp - tsSecNS p.timestamp ≤ th →
        stutterGo th (b :: rest) (some p) (tsSecNS p.timestamp) last =
          stutterGo th rest (some b) (tsSecNS b.timestamp) last) ∧
      (th < tsSecNS b.timestamp - tsSecNS p.timestamp →
        stutterGo th (b :: rest) (some p) (tsSecNS p.timestamp) last =
          (if 0 < last ∧ 1 < sub32 p.index last
            then [StutterReport.skip (sub32 p.index last - 1)] else [])
          ++ StutterReport.pair p.index b.index
              ((Int.ofNat (b.timestamp / 1000) - Int.ofNat (p.timestamp / 1000))
                * 1000000000)
            :: stutterGo th rest (some b) (tsSecNS b.timestamp) b.index) := by
  intro th rest p b last
  refine ⟨⟨rfl, fun b1 => rfl⟩, fun hle => ?_, fun hlt => ?_⟩
  · simp only [stutterGo]
    rw [if_pos hle]
  · simp only [stutterGo]
    rw [if_neg (by omega)]
    have hd : tsSecNS b.timestamp - tsSecNS p.timestamp =
        (Int.ofNat (b.timestamp / 1000) - Int.ofNat (p.timestamp / 1000))
          * 1000000000 := by
      unfold tsSecNS; ring
    rw [hd]

/-- Witness for C8: the no-report branch at an equal-delta pair (999 ms
apart, second-truncated delta 0 ≤ 500 ms) and the report branch at a
59-second gap with a prior stutter at index 10. -/
theorem C8_witness :
    stutterScan [cxB0] 500000000 = [] ∧
    (tsSecNS cxB1.timestamp - tsSecNS cxB0.timestamp ≤ (500000000 : Int) ∧
      stutterGo 500000000 [cxB1] (some cxB0) (tsSecNS cxB0.timestamp) 0 =
        stutterGo 500000000 [] (some cxB1) (tsSecNS cxB1.timestamp) 0) ∧
    ((20000000000 : Int) < tsSecNS cb21.timestamp - tsSecNS pb20.timestamp ∧
      stutterGo 20000000000 [cb21] (some pb20) (tsSecNS pb20.timestamp) 10 =
        (if 0 < 10 ∧ 1 < sub32 pb20.index 10
          then [StutterReport.skip (sub32 pb20.index 10 - 1)] else [])
        ++ StutterReport.pair pb20.index cb21.index
            ((Int.ofNat (cb21.timestamp / 1000) - Int.ofNat (pb20.timestamp / 1000))
              * 1000000000)
          :: stutterGo 20000000000 [] (some cb21) (tsSecNS cb21.timestamp) cb21.index) :=
  ⟨(C8_second_granularity 500000000 [] cxB0 cxB1 0).1.2 cxB0,
    ⟨by decide, (C8_second_granularity 500000000 [] cxB0 cxB1 0).2.1 (by decide)⟩,
    ⟨by decide, (C8_second_granularity 20000000000 [] pb20 cb21 10).2.2 (by decide)⟩⟩

/-! ## C5: cache corruption surfaces -/

/-- Claim C5: a stored block entry that is present, non-empty and fails
to decode makes Block fail with the wrapped cache-read (corruption)
error, with the state untouched — in particular no remote fetch and no
write happen, so the corrupt entry is never treated as a miss. -/
theorem C5_corruption_error :
    ∀ env st i data e,
      bktGet st.blocks (blockKey i) = some data →
      data ≠ [] →
      env.decodeBlock data = .error e →
      Block env st i = (.error (.cacheReadBlock i e), st) := by
  intro env st i data e hget hne hdec
  have hb : block env st i = .error (.cacheReadBlock i e) := by
    unfold block
    rw [hget]
    simp [hne, hdec, List.length_eq_zero]
  unfold Block
  rw [hb]

/-- Witness for C5: the undecodable two-byte entry stored for block 3
in st5 surfaces the wrapped corruption error from Block. -/
theorem C5_witness :
    bktGet st5.blocks (blockKey 3) = some [1, 2] ∧ ([1, 2] : Bytes) ≠ [] ∧
    cEnv.decodeBlock [1, 2] = .error 7 ∧
    Block cEnv st5 3 = (.error (.cacheReadBlock 3 7), st5) :=
  ⟨by decide, by decide, by decide,
    C5_corruption_error cEnv st5 3 [1, 2] 7 (by decide) (by decide) (by decide)⟩

/-! ## C10: zero-length stored values are clean misses -/

/-- Claim C10: a stored zero-length value — for a block key or a log
key — is treated exactly like a clean miss: the cache read returns ok
none rather than any error, and the exported operation proceeds to the
remote fetch path (the remote-call counter increments). -/
theorem C10_empty_value_clean_miss :
    ∀ env st i h,
      bktGet st.blocks (blockKey i) = some [] →
      bktGet st.logs h = some [] →
      block env st i = .ok none ∧
      applicationLog env st h = .ok none ∧
      (Block env st i).2.blockFetches = st.blockFetches + 1 ∧
      (ApplicationLog env st h).2.logFetches = st.logFetches + 1 := by
  intro env st i h hb hl
  have h1 : block env st i = .ok none := by
    unfold block; rw [hb]; rfl
  have h2 : applicationLog env st h = .ok none := by
    unfold applicationLog; rw [hl]; rfl
  refine ⟨h1, h2, ?_, ?_⟩
  · cases hr : env.remoteBlock i with
    | error e => simp [Block, h1, hr]
    | ok b =>
      cases ha : env.encodeBlock b with
      | error e2 => simp [Block, addBlock, h1, hr, ha]
      | ok data => simp [Block, addBlock, h1, hr, ha]
  · cases hr : env.remoteLog h with
    | error e => simp [ApplicationLog, h2, hr]
    | ok l =>
      cases ha : env.encodeLog l with
      | error e2 => simp [ApplicationLog, addApplicationLog, h2, hr, ha]
      | ok val => simp [ApplicationLog, addApplicationLog, h2, hr, ha]

/-- Witness for C10: empty stored entries for block 2 and log hash [9]
in st10 behave as clean misses and proceed to the remote path. -/
theorem C10_witness :
    bktGet st10.blocks (blockKey 2) = some [] ∧
    bktGet st10.logs [9] = some [] ∧
    (block wEnv st10 2 = .ok none ∧
     applicationLog wEnv st10 [9] = .ok none ∧
     (Block wEnv st10 2).2.blockFetches = st10.blockFetches + 1 ∧
     (ApplicationLog wEnv st10 [9]).2.logFetches = st10.logFetches + 1) :=
  ⟨by decide, by decide,
    C10_empty_value_clean_miss wEnv st10 2 [9] (by decide) (by decide)⟩

/-! ## C4: GetBlock idempotence -/

/-- Claim C4: starting from a cold cache for index i, with an honest
remote (the fetched block carries index i) and a round-tripping,
non-empty encoding, the first Block call fetches once, writes once and
returns the block; the second call returns the bit-identical record
from the cache, with no further fetch and no further write (the state
is unchanged). -/
theorem C4_getblock_idempotent :
    ∀ env st i b data,
      (bktGet st.blocks (blockKey i) = none ∨
        bktGet st.blocks (blockKey i) = some []) →
      env.remoteBlock i = .ok b →
      b.index = i →
      env.encodeBlock b = .ok data →
      data ≠ [] →
      env.decodeBlock data = .ok b →
      (Block env st i).1 = .ok b ∧
      (Block env st i).2.blockFetches = st.blockFetches + 1 ∧
      (Block env st i).2.blockWrites = st.blockWrites + 1 ∧
      Block env (Block env st i).2 i = (.ok b, (Block env st i).2) := by
  intro env st i b data hcold hrem hbi henc hne hdec
  have h1 : block env st i = .ok none := by
    rcases hcold with h | h
    · unfold block; rw [h]
    · unfold block; rw [h]; rfl
  have hrun : Block env st i =
      (.ok b,
        { st with blocks := (blockKey i, data) :: st.blocks,
                  blockFetches := st.blockFetches + 1,
                  blockWrites := st.blockWrites + 1 }) := by
    simp only [Block, h1, hrem, addBlock, henc, hbi]
  refine ⟨by rw [hrun], by rw [hrun], by rw [hrun], ?_⟩
  rw [hrun]
  have hg : bktGet
      ({ st with blocks := (blockKey i, data) :: st.blocks,
                 blockFetches := st.blockFetches + 1,
                 blockWrites := st.blockWrites + 1 } : ChainSt).blocks
      (blockKey i) = some data := by
    simp [bktGet, List.find?]
  have h2 : block env
      { st with blocks := (blockKey i, data) :: st.blocks,
                blockFetches := st.blockFetches + 1,
                blockWrites := st.blockWrites + 1 } i = .ok (some b) := by
    unfold block
    rw [hg]
    simp [hne, hdec, List.length_eq_zero]
  unfold Block
  rw [h2]

/-- Witness for C4: the empty cache, index 5 and the benign environment
wEnv: first call fetches and writes once, second call is a pure hit
returning the identical record. -/
theorem C4_witness :
    (bktGet st0.blocks (blockKey 5) = none ∨
      bktGet st0.blocks (blockKey 5) = some []) ∧
    wEnv.remoteBlock 5 = .ok b5 ∧ b5.index = 5 ∧
    wEnv.encodeBlock b5 = .ok [5] ∧ ([5] : Bytes) ≠ [] ∧
    wEnv.decodeBlock [5] = .ok b5 ∧
    ((Block wEnv st0 5).1 = .ok b5 ∧
     (Block wEnv st0 5).2.blockFetches = st0.blockFetches + 1 ∧
     (Block wEnv st0 5).2.blockWrites = st0.blockWrites + 1 ∧
     Block wEnv (Block wEnv st0 5).2 5 = (.ok b5, (Block wEnv st0 5).2)) :=
  ⟨by decide, by decide, by decide, by decide, by decide, by decide,
    C4_getblock_idempotent wEnv st0 5 b5 [5] (by decide) (by decide)
      (by decide) (by decide) (by decide) (by decide)⟩

/-! ## C6: AllNotifications order and error propagation -/

/-- A cache hit for an application log returns the cached log and
leaves the state untouched. -/
theorem applicationLog_hit :
    ∀ env st h l, applicationLog env st h = .ok (some l) →
      ApplicationLog env st h = (.ok l, st) := by
  intro env st h l hh
  unfold ApplicationLog
  rw [hh]

/-- Walking a hot prefix of the transaction list appends that prefix's
events to the accumulator without touching the state. -/
theorem allNotifsTxs_hot_front :
    ∀ env (logOf : Bytes → AppLog) (txs1 rest : List Bytes) (st : ChainSt)
      (acc : List NotificationEvent),
      (∀ h ∈ txs1, applicationLog env st h = .ok (some (logOf h))) →
      allNotifsTxs env (txs1 ++ rest) st acc =
        allNotifsTxs env rest st (acc ++ eventsOfLogs logOf txs1) := by
  intro env logOf txs1
  induction txs1 with
  | nil => intro rest st acc _; simp [eventsOfLogs]
  | cons h1 t ih =>
    intro rest st acc hhot
    have hit := applicationLog_hit env st h1 (logOf h1) (hhot h1 (by simp))
    simp only [List.cons_append, allNotifsTxs, hit, List.append_eq]
    rw [ih rest st _ (fun h2 hm => hhot h2 (by simp [hm]))]
    simp [eventsOfLogs]

/-- Claim C6: on a hot cache AllNotifications returns the events of the
block's own log first, then each transaction's log's events in block
order, all in execution order, with the state untouched; and any
underlying log failure — at the block's own hash or at any transaction
position — propagates as the result. -/
theorem C6_all_notifications :
    ∀ env st b logOf,
      ((∀ h ∈ b.hash :: b.txs, applicationLog env st h = .ok (some (logOf h))) →
        AllNotifications env st b =
          (.ok (notifsOfLog (logOf b.hash) ++ eventsOfLogs logOf b.txs), st)) ∧
      (∀ e, applicationLog env st b.hash = .error e →
        AllNotifications env st b = (.error e, st)) ∧
      (∀ e st1 htx txs1 txs2, b.txs = txs1 ++ htx :: txs2 →
        (∀ h ∈ b.hash :: txs1, applicationLog env st h = .ok (some (logOf h))) →
        ApplicationLog env st htx = (.error e, st1) →
        AllNotifications env st b = (.error e, st1)) := by
  intro env st b logOf
  refine ⟨fun hhot => ?_, fun e he => ?_, fun e st1 htx txs1 txs2 hsplit hhot herr => ?_⟩
  · have hit := applicationLog_hit env st b.hash (logOf b.hash) (hhot _ (by simp))
    have hpre := allNotifsTxs_hot_front env logOf b.txs [] st
      (notifsOfLog (logOf b.hash)) (fun h hm => hhot h (by simp [hm]))
    rw [List.append_nil] at hpre
    simp only [AllNotifications, hit]
    rw [hpre]
    simp [allNotifsTxs]
  · have hfail : ApplicationLog env st b.hash = (.error e, st) := by
      unfold ApplicationLog; rw [he]
    simp only [AllNotifications, hfail]
  · have hit := applicationLog_hit env st b.hash (logOf b.hash) (hhot _ (by simp))
    simp only [AllNotifications, hit, hsplit]
    rw [allNotifsTxs_hot_front env logOf txs1 (htx :: txs2) st _
      (fun h hm => hhot h (by simp [hm]))]
    simp only [allNotifsTxs, herr]

/-- Witness for C6: block b6 (own hash [1], transactions [2], [3]) on
the hot cache st6 yields its own log's events first, then the two
transaction logs' events in order, leaving the state unchanged. -/
theorem C6_witness :
    (∀ h ∈ b6.hash :: b6.txs, applicationLog wEnv st6 h = .ok (some (logOf6 h))) ∧
    AllNotifications wEnv st6 b6 =
      (.ok (notifsOfLog (logOf6 b6.hash) ++ eventsOfLogs logOf6 b6.txs), st6) :=
  ⟨by decide, (C6_all_notifications wEnv st6 b6 logOf6).1 (by decide)⟩

/-! ## C1: cancellation behavior of cacheBlocks -/

/-- Once the main goroutine has returned with an error, no action
changes its result and no further task is ever claimed. -/
theorem step_ret_frozen :
    ∀ env s a r, s.mpc = .retErr r →
      (step env s a).mpc = .retErr r ∧ (step env s a).claimed = s.claimed := by
  intro env s a r h
  cases a with
  | cancel => simp [step, h]
  | mDone => simp [step, mainAtSelect, h]
  | mRecvErr w =>
    cases hw : wpcAt s w <;> simp [step, hw, mainAtSelect, h]
  | mSend w => simp [step, h]
  | mAdvance => simp [step, h]
  | mFinishOk => simp [step, h]
  | wCancel w => by_cases hw : wpcAt s w = .idle ∧ s.ctxDone <;> simp [step, hw, h]
  | wAdd w => cases hw : wpcAt s w <;> simp [step, hw, h]
  | wProcess w =>
    cases hw : wpcAt s w <;> simp [step, hw, h]
    split <;> simp [h]
  | wDone w => cases hw : wpcAt s w <;> simp [step, hw, h]
  | waiterClose => simp [step, h]; split <;> simp [h]

/-- Error returns are absorbing along any schedule: the result stays
the same error and the claimed-task count never grows. -/
theorem runPool_ret_frozen :
    ∀ env (acts : List PoolAct) s r, s.mpc = .retErr r →
      (runPool env acts s).mpc = .retErr r ∧
      (runPool env acts s).claimed = s.claimed := by
  intro env acts
  induction acts with
  | nil => intro s r h; exact ⟨h, rfl⟩
  | cons a rest ih =>
    intro s r h
    have h1 := step_ret_frozen env s a r h
    have h2 := ih (step env s a) r h1.1
    exact ⟨h2.1, h2.2.trans h1.2⟩

/-- Claim C1 counterexample: with the cancellation signal raised before
any dispatch, cacheBlocks returns the error value "interrupted" — an
error return, not a without-error return. -/
theorem C1_counterexample :
    (runPool env01 [.cancel, .mDone] (initPool env01 1)).mpc =
      .retErr .interrupted ∧
    (runPool env01 [.cancel, .mDone] (initPool env01 1)).mpc ≠ .retOk := by
  decide

/-- Claim C1 (amended): when the main goroutine observes the
cancellation signal at one of its selects, the call immediately returns
the fixed sentinel error "interrupted" — a non-nil error value,
distinguishable from every worker fetch error — and from that point on
no new task is ever claimed under any schedule. -/
theorem C1_cancellation_interrupted :
    ∀ env s, s.ctxDone = true → mainAtSelect env s →
      (step env s .mDone).mpc = .retErr .interrupted ∧
      (step env s .mDone).claimed = s.claimed ∧
      (∀ acts, (runPool env acts (step env s .mDone)).mpc = .retErr .interrupted ∧
        (runPool env acts (step env s .mDone)).claimed = s.claimed) ∧
      (∀ i, MErr.interrupted ≠ MErr.fetchErr i) := by
  intro env s hc hm
  have hstep : step env s .mDone = { s with mpc := .retErr .interrupted } := by
    simp [step, hc, hm]
  refine ⟨by rw [hstep], by rw [hstep], fun acts => ?_, fun i h => by cases h⟩
  have := runPool_ret_frozen env acts (step env s .mDone) .interrupted (by rw [hstep])
  exact ⟨this.1, by rw [this.2, hstep]⟩

/-- Witness for C1: the one-worker env01 machine right after the signal
arrives; the cancellation branch returns "interrupted", and even a
subsequent dispatch attempt claims nothing. -/
theorem C1_witness :
    (stCancel.ctxDone = true ∧ mainAtSelect env01 stCancel) ∧
    (step env01 stCancel .mDone).mpc = .retErr .interrupted ∧
    (step env01 stCancel .mDone).claimed = stCancel.claimed ∧
    (runPool env01 [.mSend 0] (step env01 stCancel .mDone)).mpc =
      .retErr .interrupted ∧
    (runPool env01 [.mSend 0] (step env01 stCancel .mDone)).claimed =
      stCancel.claimed ∧
    MErr.interrupted ≠ MErr.fetchErr 5 := by
  have h := C1_cancellation_interrupted env01 stCancel (by decide) (by decide)
  exact ⟨⟨by decide, by decide⟩, h.1, h.2.1, (h.2.2.1 [.mSend 0]).1,
    (h.2.2.1 [.mSend 0]).2, h.2.2.2 5⟩

/-! ## C9: the pool can report success before the work is done -/

/-- Claim C9 (the code bug): one worker, one task, no failures. The
schedule sends the task to the worker, then runs the main goroutine to
completion before the worker executes wg.Add: the WaitGroup counter is
still zero, so the waiter closes wgCh and cacheBlocks returns ok — yet
the claimed task is still unprocessed and nothing has been cached. This
evaluates the embedded cacheBlocks at the failing interleaving. -/
theorem C9_ok_return_before_completion :
    (runPool env01 [.mSend 0, .mAdvance, .waiterClose, .mFinishOk]
      (initPool env01 1)).mpc = .retOk ∧
    (runPool env01 [.mSend 0, .mAdvance, .waiterClose, .mFinishOk]
      (initPool env01 1)).cached = [] ∧
    (runPool env01 [.mSend 0, .mAdvance, .waiterClose, .mFinishOk]
      (initPool env01 1)).claimed = 1 ∧
    wpcAt (runPool env01 [.mSend 0, .mAdvance, .waiterClose, .mFinishOk]
      (initPool env01 1)) 0 = .got 0 := by
  decide

end Monza
